import Mathlib

/-!
Shallow embedding of the `incognitojam/energy` repository:
`src/tariffs.py` (rate-window → minute-table compilation and time-of-day
rate lookup) and `src/octopus.py` (query-string building and
cursor-following pagination).

Modelling conventions:
* Python floats carrying prices are modelled as `Rat` (the compilation
  logic only stores and compares them, never does float arithmetic).
* The pandas minute index (`pd.timedelta_range(start="00:00:00",
  periods=24*60, freq="min")`) is modelled as `Fin 1440`; a `pd.Series`
  over that index is a total function `Fin 1440 → Rat`.
* `pd.Timedelta`/`pd.to_timedelta` applied to a colon-separated string
  is modelled by `toTimedeltaSecs`: two colon-separated digit fields
  `"h:m"` are hours and minutes (`pd.Timedelta("6:00")` is 6 hours),
  three fields `"h:m:s"` are hours, minutes and seconds; fields are
  unbounded (`"0:75"` is 75 minutes). Any other digit/colon shape (a
  lone field without a unit, an empty field, four or more fields)
  raises, modelled as `Option.none`. Pandas input forms outside the
  digit/colon family (signs, whitespace, unit words such as `"1 day"`)
  are also modelled as errors; statements that quantify over arbitrary
  query strings are therefore scoped to digit/colon inputs, where this
  model is exact.
* Looking a `Timedelta` label up in the minute-indexed series succeeds
  exactly when the label is a whole minute below 24 hours; a missing
  label raises `KeyError`, modelled as `Option.none`.
-/

namespace Energy

/-- `Rate` dataclass from `src/tariffs.py`: a named rate window with
`HH:MM` start and end strings. -/
structure Rate where
  name : String
  unit_rate : Rat
  start_time : String
  end_time : String
deriving Repr, DecidableEq

/-- `Tariff` dataclass fields from `src/tariffs.py` (the derived
`_unit_rate_lookup` series is kept separate, as the result of
`Tariff.compile_unit_rate_lookup`). -/
structure Tariff where
  name : String
  day_unit_rate : Rat
  standing_charge : Rat
  additional_rates : List Rate
deriving Repr, DecidableEq

/-- Split a character list at every colon: the field structure pandas
sees in a `"h:m:s"` timedelta string. -/
def splitCols : List Char → List (List Char)
  | [] => [[]]
  | c :: cs =>
    if c = ':' then [] :: splitCols cs
    else
      match splitCols cs with
      | [] => [[c]]
      | d :: ds => (c :: d) :: ds

/-- Parse a non-empty all-digit field to its numeric value (pandas
accepts unbounded field values: `"0:75:00"` is 75 minutes). -/
def digitsToNat? (cs : List Char) : Option Nat :=
  if cs ≠ [] ∧ cs.all Char.isDigit then
    some (cs.foldl (fun n c => n * 10 + (c.toNat - 48)) 0)
  else
    Option.none

/-- Model of `pd.Timedelta(s)` / `pd.to_timedelta(s)` on a
colon-separated string, as a total number of seconds: two digit fields
`h:m` give `h*3600 + m*60` (pandas reads `"h:m"` as hours:minutes),
three digit fields `h:m:s` give `h*3600 + m*60 + s`; any other
digit/colon shape raises (`Option.none`). -/
def toTimedeltaSecs (s : String) : Option Nat :=
  match (splitCols s.data).map digitsToNat? with
  | [some a, some b] => some (a * 3600 + b * 60)
  | [some a, some b, some c] => some (a * 3600 + b * 60 + c)
  | _ => Option.none

/-- The minute-of-day label a window's `HH:MM` time denotes in the
compiled series: the code parses `pd.to_timedelta(time + ":00")`; the
label is a valid index of the minute table exactly when it is a whole
minute below 24 hours. Windows whose times fall outside the 1440-minute
index would mutate the pandas index and are outside the modelled
domain (`Option.none`). -/
def timeToMinute (s : String) : Option Nat :=
  match toTimedeltaSecs (s ++ ":00") with
  | some secs => if secs % 60 = 0 ∧ secs / 60 < 1440 then some (secs / 60) else Option.none
  | Option.none => Option.none

/-- The compiled minute table: one unit rate per minute of the day. -/
abbrev MinuteTable := Fin 1440 → Rat

/-- One iteration of the compilation loop in
`Tariff.compile_unit_rate_lookup`: update the series for a single
window with start/end minutes `s`/`e` and rate `v`, following the three
branches of the source (single minute, in-day interval, overnight
wrap). -/
def applyRate (lookup : MinuteTable) (s e : Nat) (v : Rat) : MinuteTable :=
  if s = e then
    fun m => if (m : Nat) = s then v else lookup m
  else if s < e then
    fun m => if s ≤ (m : Nat) ∧ (m : Nat) < e then v else lookup m
  else
    fun m => if s ≤ (m : Nat) ∨ (m : Nat) < e then v else lookup m

/-- The compilation loop over the window list, starting from a given
series; `Option.none` when some window's time fails to parse into the
minute index. -/
def applyRates (lookup : MinuteTable) : List Rate → Option MinuteTable
  | [] => some lookup
  | r :: rs =>
    match timeToMinute r.start_time, timeToMinute r.end_time with
    | some s, some e => applyRates (applyRate lookup s e r.unit_rate) rs
    | _, _ => Option.none

/-- `Tariff.compile_unit_rate_lookup` from `src/tariffs.py`: initialise
all 1440 slots to the day rate, then fold the windows over the table in
list order. -/
def Tariff.compile_unit_rate_lookup (day_unit_rate : Rat) (additional_rates : List Rate) :
    Option MinuteTable :=
  applyRates (fun _ => day_unit_rate) additional_rates

/-- `Tariff.lookup` from `src/tariffs.py`:
`self._unit_rate_lookup[pd.Timedelta(time + ":00")]`. The label is in
the minute index exactly when the parsed timedelta is a whole minute
below 24 hours; otherwise the lookup raises (`Option.none`). -/
def Tariff.lookup (table : MinuteTable) (time : String) : Option Rat :=
  match toTimedeltaSecs (time ++ ":00") with
  | some secs =>
    if h : secs % 60 = 0 ∧ secs / 60 < 1440 then some (table ⟨secs / 60, h.2⟩)
    else Option.none
  | Option.none => Option.none

/-- The set of minutes a window with start/end minutes `s`/`e` covers,
per the three branches of the compilation loop. -/
def coversMin (s e m : Nat) : Bool :=
  if s = e then m == s
  else if s < e then decide (s ≤ m) && decide (m < e)
  else decide (s ≤ m) || decide (m < e)

/-- Whether a window covers a given minute of the day. -/
def Rate.covers (r : Rate) (m : Nat) : Bool :=
  match timeToMinute r.start_time, timeToMinute r.end_time with
  | some s, some e => coversMin s e m
  | _, _ => false

/-- One line of `Tariff.__str__` for a rate window:
`f"{rate.name} ({rate.start_time} - {rate.end_time}): {rate.unit_rate} p/kWh\n"`. -/
def Rate.renderLine (r : Rate) : String :=
  r.name ++ " (" ++ r.start_time ++ " - " ++ r.end_time ++ "): " ++
    toString r.unit_rate ++ " p/kWh\n"

/-- `Tariff.__str__` from `src/tariffs.py`: header line, day-rate line,
one line per window in list order, then the standing-charge line. -/
def Tariff.str (t : Tariff) : String :=
  (t.additional_rates.foldl (fun b r => b ++ r.renderLine)
      ("Tariff: " ++ t.name ++ "\n" ++ "Day unit rate: " ++ toString t.day_unit_rate ++ " p/kWh\n"))
    ++ "Standing charge: " ++ toString t.standing_charge ++ " p\n"

/-- Concatenation of a list of rendered lines. -/
def concatLines : List String → String
  | [] => ""
  | s :: rest => s ++ concatLines rest

/-- The rendering the claim describes, with the schedule's fields in
dataclass declaration order: name, day unit rate, standing charge, then
the rate windows. -/
def Tariff.strClaimOrder (t : Tariff) : String :=
  "Tariff: " ++ t.name ++ "\n" ++
    "Day unit rate: " ++ toString t.day_unit_rate ++ " p/kWh\n" ++
    "Standing charge: " ++ toString t.standing_charge ++ " p\n" ++
    concatLines (t.additional_rates.map Rate.renderLine)

/-- The rendering order the code actually produces: name, day unit
rate, the rate windows in list order, then the standing charge. -/
def Tariff.strRendered (t : Tariff) : String :=
  "Tariff: " ++ t.name ++ "\n" ++
    "Day unit rate: " ++ toString t.day_unit_rate ++ " p/kWh\n" ++
    concatLines (t.additional_rates.map Rate.renderLine) ++
    "Standing charge: " ++ toString t.standing_charge ++ " p\n"

/-- The Python values that reach `params_to_str` as keyword arguments:
`None`, booleans, integers and strings. -/
inductive PyValue where
  | pyNone : PyValue
  | pyBool : Bool → PyValue
  | pyInt : Int → PyValue
  | pyStr : String → PyValue
deriving Repr, DecidableEq

/-- Python truthiness of a value (`if v` in the generator expression):
`None`, `False`, `0` and `""` are falsy. -/
def PyValue.truthy : PyValue → Bool
  | .pyNone => false
  | .pyBool b => b
  | .pyInt n => n != 0
  | .pyStr s => s != ""

/-- Python `f"{v}"` of a value. -/
def PyValue.fmt : PyValue → String
  | .pyNone => "None"
  | .pyBool b => if b then "True" else "False"
  | .pyInt n => toString n
  | .pyStr s => s

/-- Python `"&".join(items)`. -/
def joinAmp : List String → String
  | [] => ""
  | [s] => s
  | s :: rest => s ++ "&" ++ joinAmp rest

/-- `params_to_str` from `src/octopus.py`:
`"&".join(f"{k}={v}" for k, v in kwargs.items() if v)`, with the
keyword arguments in insertion order. -/
def params_to_str (kwargs : List (String × PyValue)) : String :=
  joinAmp (kwargs.foldr
    (fun kv acc => if kv.2.truthy then (kv.1 ++ "=" ++ kv.2.fmt) :: acc else acc) [])

/-- One page of a paginated API response: its `results` array and its
optional `next` cursor (`response.get("next")`). -/
structure PageResponse (α : Type) where
  results : List α
  next : Option String
deriving Repr, DecidableEq

/-- Python `s.find(sub)`: the smallest character index where `sub`
occurs in `s`, `-1` when it does not occur. -/
def pyFind (s sub : String) : Int :=
  match (List.range (s.length + 1)).find? (fun i => sub.data.isPrefixOf (s.data.drop i)) with
  | some i => (i : Int)
  | Option.none => -1

/-- Python `s[i:]` with a possibly negative start index: a negative
start counts from the end of the string, clamped at 0. -/
def pySliceFrom (s : String) (i : Int) : String :=
  if i < 0 then String.mk (s.data.drop (s.length - (-i).toNat))
  else String.mk (s.data.drop i.toNat)

/-- The cursor-to-path step of `_get_all`:
`path = next[next.find(self.base_url) + len(self.base_url):]`. -/
def nextPath (base nxt : String) : String :=
  pySliceFrom nxt (pyFind nxt base + (base.length : Int))

/-- The `while True` loop of `_get_all`, with an explicit fuel bound
standing for the (finite) number of server pages: each iteration
issues one request (`reqs` counts them), appends the page's `results`,
and stops when the `next` cursor is absent or falsy (the empty
string). `Option.none` means the fuel ran out before the cursor chain
ended. -/
def getAllAux (base : String) (server : String → PageResponse α) :
    Nat → String → List α → Nat → Option (List α × Nat)
  | 0, _, _, _ => Option.none
  | fuel + 1, path, data, reqs =>
    let response := server path
    let data₂ := data ++ response.results
    match response.next with
    | Option.none => some (data₂, reqs + 1)
    | some nxt =>
      if nxt = "" then some (data₂, reqs + 1)
      else getAllAux base server fuel (nextPath base nxt) data₂ (reqs + 1)

/-- `OctopusEnergyAPIClient._get_all` from `src/octopus.py`, with the
HTTP `get` modelled as a function from the request path to the page it
returns. The result pairs the collected records with the number of
requests issued. -/
def get_all (base : String) (server : String → PageResponse α) (fuel : Nat)
    (path : String) : Option (List α × Nat) :=
  getAllAux base server fuel path [] 0

/-- A finite chain of server pages starting at `path`: each page's
`next` cursor is either absent/falsy (last page) or a full URL
`base ++ tail` pointing at the next page. The list collects each
page's `results` in chain order. -/
inductive PageChain (base : String) (server : String → PageResponse α) :
    String → List (List α) → Prop
  | last (path : String) :
      (server path).next = Option.none ∨ (server path).next = some "" →
      PageChain base server path [(server path).results]
  | step (path tail : String) (rest : List (List α)) :
      (server path).next = some (base ++ tail) →
      base ++ tail ≠ "" →
      PageChain base server tail rest →
      PageChain base server path ((server path).results :: rest)

/-- Witness fixture: the base URL of the client. -/
def demoBase : String := "https://api.octopus.energy/"

/-- Witness fixture: a three-page server, two records per page, linked
by `next` cursors. -/
def demoServer : String → PageResponse Nat := fun path =>
  if path = "v1/products?page=1" then ⟨[1, 2], some (demoBase ++ "v1/products?page=2")⟩
  else if path = "v1/products?page=2" then ⟨[3, 4], some (demoBase ++ "v1/products?page=3")⟩
  else if path = "v1/products?page=3" then ⟨[5, 6], Option.none⟩
  else ⟨[], Option.none⟩

/-- Witness fixture: a minute table holding each minute's index as its
rate, to make the looked-up slot visible. -/
def demoTable : MinuteTable := fun m => ((m : Nat) : Rat)

/-- Witness fixture: a broad `[08:00, 12:00)` window at rate 20. -/
def demoPeak : Rate := ⟨"peak", 20, "08:00", "12:00"⟩

/-- Witness fixture: an overlapping `[09:00, 10:00)` window at rate 30. -/
def demoMid : Rate := ⟨"mid", 30, "09:00", "10:00"⟩

/-- Witness fixture: the table compiled from `[demoPeak, demoMid]` over
base rate 10. -/
def demoT₁ : MinuteTable := applyRate (applyRate (fun _ => 10) 480 720 20) 540 600 30

/-- Witness fixture: the table compiled from `[demoMid, demoPeak]` over
base rate 10. -/
def demoT₂ : MinuteTable := applyRate (applyRate (fun _ => 10) 540 600 30) 480 720 20

/-- Witness fixture: the table compiled from the overnight window
`23:00 - 01:00` at rate 5 over base rate 10. -/
def demoNight : MinuteTable := applyRate (fun _ => 10) 1380 60 5

/-- Witness fixture: the table compiled from the single-minute window
`06:00 - 06:00` at rate 99 over base rate 10. -/
def demoSingleTable : MinuteTable := applyRate (fun _ => 10) 360 360 99

/-- Witness fixture: the table compiled from `[demoPeak]` over base
rate 10. -/
def demoPeakTable : MinuteTable := applyRate (fun _ => 10) 480 720 20

/-- Counterexample fixture: a schedule with one rate window, to compare
the rendering orders on. -/
def demoTariff : Tariff := ⟨"Eco 7", 10, 25, [⟨"night", 5, "23:00", "01:00"⟩]⟩

/-!
Helper lemmas shared by the claim theorems.
-/

/-- Pointwise description of one compilation step: the slot changes to
the window's rate exactly on the minutes the window covers. -/
theorem applyRate_apply (t : MinuteTable) (s e : Nat) (v : Rat) (m : Fin 1440) :
    applyRate t s e v m = if coversMin s e (m : Nat) then v else t m := by
  unfold applyRate coversMin
  split_ifs <;> simp_all

/-- Pointwise description of the whole compilation loop: each slot
holds the rate of the last window in list order covering it, or the
initial table's value when none does. -/
theorem applyRates_eq (rs : List Rate) :
    ∀ (t table : MinuteTable), applyRates t rs = some table → ∀ m : Fin 1440,
      table m = match rs.reverse.find? (fun r => r.covers (m : Nat)) with
        | some r => r.unit_rate
        | Option.none => t m := by
  induction rs with
  | nil =>
    intro t table h m
    simp only [applyRates, Option.some.injEq] at h
    subst h
    simp
  | cons r rs ih =>
    intro t table h m
    unfold applyRates at h
    rcases hs : timeToMinute r.start_time with _ | s <;> rw [hs] at h
    · simp at h
    rcases he : timeToMinute r.end_time with _ | e <;> rw [he] at h
    · simp at h
    have hm := ih (applyRate t s e r.unit_rate) table h m
    rw [hm, List.reverse_cons, List.find?_append]
    rcases hf : rs.reverse.find? (fun r => r.covers (m : Nat)) with _ | r' <;> rw [hf]
    · rw [Option.none_or, applyRate_apply]
      simp only [List.find?, Rate.covers, hs, he]
      cases hc : coversMin s e (m : Nat) <;> simp [hc]
    · rfl

/-- `splitCols` always produces at least one field. -/
theorem splitCols_ne_nil (cs : List Char) : splitCols cs ≠ [] := by
  induction cs with
  | nil => simp [splitCols]
  | cons c cs ih =>
    unfold splitCols
    split_ifs
    · simp
    · rcases h : splitCols cs with _ | ⟨d, ds⟩
      · simp
      · simp

/-- Splitting at colons distributes over appending a colon. -/
theorem splitCols_append (x y : List Char) :
    splitCols (x ++ ':' :: y) = splitCols x ++ splitCols y := by
  induction x with
  | nil => simp [splitCols]
  | cons c cs ih =>
    by_cases hc : c = ':'
    · subst hc
      simp [splitCols, ih]
    · rcases h : splitCols cs with _ | ⟨d, ds⟩
      · exact absurd h (splitCols_ne_nil cs)
      · simp [splitCols, hc, ih, h]

/-- What the code-side timedelta parser does to `time + ":00"`: the
input's own colon fields get a trailing zero field, so a bare-hour
input becomes the two-field hours:minutes form (`a` hours) and a
two-field `hour:minute` input becomes the three-field form; anything
else fails. -/
theorem toTimedeltaSecs_append00 (time : String) :
    toTimedeltaSecs (time ++ ":00") =
      match (splitCols time.data).map digitsToNat? with
      | [some a] => some (a * 3600)
      | [some a, some b] => some (a * 3600 + b * 60)
      | _ => Option.none := by
  unfold toTimedeltaSecs
  rw [show (time ++ ":00").data = time.data ++ ':' :: ['0', '0'] from String.data_append time ":00",
    splitCols_append, List.map_append]
  rw [show splitCols ['0', '0'] = [['0', '0']] from rfl]
  rw [show List.map digitsToNat? [['0', '0']] = [some 0] from rfl]
  generalize (splitCols time.data).map digitsToNat? = ls
  rcases ls with _ | ⟨x, ls⟩
  · rfl
  rcases x with _ | a
  · rfl
  rcases ls with _ | ⟨y, ls⟩
  · simp
  rcases y with _ | b
  · rfl
  rcases ls with _ | ⟨z, ls⟩
  · simp
  rcases z with _ | c
  · rfl
  rcases h : ls ++ [some 0] with _ | ⟨w, ws⟩
  · simp at h
  · rw [show (some a :: some b :: some c :: ls) ++ [some 0]
        = some a :: some b :: some c :: (ls ++ [some 0]) from rfl, h]

/-- The rate query in terms of the input's colon fields: one digit
field `h` in range returns the slot at `h*60` (the appended zero field
makes it hours:minutes), two digit fields `h`/`mc` landing in range
return the slot at `h*60 + mc`; any other input fails. -/
theorem lookup_char (table : MinuteTable) (time : String) :
    Tariff.lookup table time =
      match (splitCols time.data).map digitsToNat? with
      | [some h] =>
        if hlt : h * 60 < 1440 then some (table ⟨h * 60, hlt⟩) else Option.none
      | [some h, some mc] =>
        if hlt : h * 60 + mc < 1440 then some (table ⟨h * 60 + mc, hlt⟩) else Option.none
      | _ => Option.none := by
  unfold Tariff.lookup
  rw [toTimedeltaSecs_append00]
  generalize (splitCols time.data).map digitsToNat? = ls
  rcases ls with _ | ⟨x, ls⟩
  · rfl
  rcases x with _ | a
  · rfl
  rcases ls with _ | ⟨y, ls⟩
  · have e1 : (a * 3600) % 60 = 0 := by omega
    have e2 : (a * 3600) / 60 = a * 60 := by omega
    simp only [e1, e2, true_and]
  rcases y with _ | b
  · rfl
  rcases ls with _ | ⟨z, ls⟩
  · have e1 : (a * 3600 + b * 60) % 60 = 0 := by omega
    have e2 : (a * 3600 + b * 60) / 60 = a * 60 + b := by omega
    simp only [e1, e2, true_and]
  · rfl

/-- Folding line-appends over a list equals the concatenation of the
rendered lines after the initial string. -/
theorem foldl_render (l : List Rate) : ∀ init : String,
    l.foldl (fun b r => b ++ r.renderLine) init
      = init ++ concatLines (l.map Rate.renderLine) := by
  induction l with
  | nil => intro init; simp [concatLines]
  | cons r rs ih =>
    intro init
    simp only [List.foldl_cons, List.map_cons, concatLines]
    rw [ih, String.append_assoc]

/-- A list is a `isPrefixOf`-prefix of itself extended on the right. -/
theorem isPrefixOf_append_self (l₁ l₂ : List Char) : l₁.isPrefixOf (l₁ ++ l₂) = true := by
  induction l₁ with
  | nil => simp [List.isPrefixOf]
  | cons c cs ih => simp [List.isPrefixOf, ih]

/-- Python `find` locates `base` at index 0 of `base ++ tail`. -/
theorem pyFind_append (base tail : String) : pyFind (base ++ tail) base = 0 := by
  have hp : base.data.isPrefixOf (base.data ++ tail.data) = true :=
    isPrefixOf_append_self base.data tail.data
  unfold pyFind
  rw [List.range_succ_eq_map]
  simp [List.find?, hp]

/-- The cursor-to-path step recovers the path component of a full URL:
slicing `base ++ tail` from `find(base) + len(base)` gives `tail`. -/
theorem nextPath_append (base tail : String) : nextPath base (base ++ tail) = tail := by
  unfold nextPath
  rw [pyFind_append]
  unfold pySliceFrom
  rw [if_neg (by omega)]
  have h1 : ((0 : Int) + (base.length : Int)).toNat = base.length := by omega
  rw [h1, String.data_append, show base.length = base.data.length from rfl, List.drop_left]

/-- The pagination loop walks a page chain to its end, collecting each
page's records and issuing one request per page. -/
theorem getAllAux_chain {α : Type} {base : String} {server : String → PageResponse α}
    {path : String} {pages : List (List α)} (hc : PageChain base server path pages) :
    ∀ (fuel : Nat) (acc : List α) (reqs : Nat), pages.length ≤ fuel →
      getAllAux base server fuel path acc reqs
        = some (acc ++ pages.flatten, reqs + pages.length) := by
  induction hc with
  | last path hnext =>
    intro fuel acc reqs hfuel
    cases fuel with
    | zero => simp at hfuel
    | succ f =>
      simp only [getAllAux]
      rcases hnext with h | h <;> rw [h] <;> simp
  | step path tail rest hnext hne hrest ih =>
    intro fuel acc reqs hfuel
    cases fuel with
    | zero => simp at hfuel
    | succ f =>
      simp only [getAllAux]
      rw [hnext]
      simp only [if_neg hne]
      rw [nextPath_append]
      rw [ih f (acc ++ (server path).results) (reqs + 1) (by simp at hfuel ⊢; omega)]
      simp [List.append_assoc]
      omega

/-- The fused filter-and-render generator equals rendering the
truthiness-filtered entries. -/
theorem foldr_filter_map (l : List (String × PyValue)) :
    l.foldr (fun kv acc => if kv.2.truthy then (kv.1 ++ "=" ++ kv.2.fmt) :: acc else acc) []
      = (l.filter (fun kv => kv.2.truthy)).map (fun kv => kv.1 ++ "=" ++ kv.2.fmt) := by
  induction l with
  | nil => rfl
  | cons kv rest ih =>
    simp only [List.foldr_cons, List.filter_cons, ih]
    by_cases h : kv.2.truthy <;> simp [h]

/-!
Claim theorems.
-/

/-- C1: for every base rate, every list of windows with valid `HH:MM`
times (the hypothesis that compilation succeeds), and every minute of
the day, the compiled table holds the unit rate of the last window in
list order covering that minute and the base rate when none does —
last-write-wins; in particular, for two overlapping windows the later
one determines the rate on the overlap, and reversing the pair flips
the overlap to the other window's rate. -/
theorem compile_last_write_wins :
    (∀ (day : Rat) (rates : List Rate) (table : MinuteTable),
      Tariff.compile_unit_rate_lookup day rates = some table → ∀ m : Fin 1440,
        table m = ((rates.reverse.find? (fun r => r.covers (m : Nat))).map Rate.unit_rate).getD day)
    ∧ (∀ (day : Rat) (w₁ w₂ : Rate) (t₁ t₂ : MinuteTable) (m : Fin 1440),
      Tariff.compile_unit_rate_lookup day [w₁, w₂] = some t₁ →
      Tariff.compile_unit_rate_lookup day [w₂, w₁] = some t₂ →
      w₁.covers (m : Nat) = true → w₂.covers (m : Nat) = true →
      t₁ m = w₂.unit_rate ∧ t₂ m = w₁.unit_rate) := by
  have key : ∀ (day : Rat) (rates : List Rate) (table : MinuteTable),
      Tariff.compile_unit_rate_lookup day rates = some table → ∀ m : Fin 1440,
        table m = ((rates.reverse.find? (fun r => r.covers (m : Nat))).map Rate.unit_rate).getD day := by
    intro day rates table h m
    rw [applyRates_eq rates (fun _ => day) table h m]
    rcases hf : rates.reverse.find? (fun r => r.covers (m : Nat)) with _ | r <;> simp [hf]
  refine ⟨key, ?_⟩
  intro day w₁ w₂ t₁ t₂ m h₁ h₂ hc₁ hc₂
  have e₁ := key day [w₁, w₂] t₁ h₁ m
  have e₂ := key day [w₂, w₁] t₂ h₂ m
  simp [List.find?, hc₁, hc₂] at e₁ e₂
  exact ⟨e₁, e₂⟩

/-- C1 witness: base rate 10, `[08:00,12:00)@20` then `[09:00,10:00)@30`,
at minute 570 (`09:30`) the later window wins; reversed, the broad
window wins. -/
theorem compile_last_write_wins_witness :
    demoT₁ 570 = 30 ∧ demoT₂ 570 = 20 :=
  compile_last_write_wins.2 10 demoPeak demoMid demoT₁ demoT₂ 570 rfl rfl
    (by decide) (by decide)

/-- C2: a window whose start minute is strictly greater than its end
minute wraps past midnight: one compilation step sets every slot in
`[start, 1440) ∪ [0, end)` to the window's rate and leaves every other
slot at the incoming table's value. -/
theorem overnight_wrap (t table : MinuteTable) (r : Rate) (s e : Nat)
    (hs : timeToMinute r.start_time = some s) (he : timeToMinute r.end_time = some e)
    (hlt : e < s) (h : applyRates t [r] = some table) (m : Fin 1440) :
    table m = if s ≤ (m : Nat) ∨ (m : Nat) < e then r.unit_rate else t m := by
  unfold applyRates at h
  rw [hs, he] at h
  simp only [applyRates, Option.some.injEq] at h
  subst h
  rw [applyRate_apply]
  have h1 : coversMin s e (m : Nat) = (decide (s ≤ (m : Nat)) || decide ((m : Nat) < e)) := by
    unfold coversMin
    rw [if_neg (by omega), if_neg (by omega)]
  rw [h1]
  by_cases hm : s ≤ (m : Nat) ∨ (m : Nat) < e <;> simp [hm]

/-- C2 witness: the overnight window `23:00 - 01:00 @ 5` over base 10
covers `23:30` (minute 1410). -/
theorem overnight_wrap_witness : demoNight 1410 = 5 := by
  have h := overnight_wrap (fun _ => 10) demoNight ⟨"night", 5, "23:00", "01:00"⟩
    1380 60 (by decide) (by decide) (by decide) rfl 1410
  simpa using h

/-- C3: a window whose start and end parse to the same minute sets
exactly that one slot and leaves the other 1439 slots unchanged; the
example schedule with one window `06:00 - 06:00 @ 99` answers 99 at
`06:00` and the base rate at `06:01`. -/
theorem single_minute_window :
    (∀ (t table : MinuteTable) (r : Rate) (s : Nat),
      timeToMinute r.start_time = some s → timeToMinute r.end_time = some s →
      applyRates t [r] = some table → ∀ m : Fin 1440,
        table m = if (m : Nat) = s then r.unit_rate else t m)
    ∧ (∀ day : Rat, ∃ table : MinuteTable,
        Tariff.compile_unit_rate_lookup day [⟨"fixed", 99, "06:00", "06:00"⟩] = some table ∧
        Tariff.lookup table "06:00" = some 99 ∧ Tariff.lookup table "06:01" = some day) := by
  constructor
  · intro t table r s hs he h m
    unfold applyRates at h
    rw [hs, he] at h
    simp only [applyRates, Option.some.injEq] at h
    subst h
    rw [applyRate_apply]
    have h1 : coversMin s s (m : Nat) = ((m : Nat) == s) := by
      unfold coversMin
      rw [if_pos rfl]
    rw [h1]
    by_cases hm : (m : Nat) = s <;> simp [hm]
  · intro day
    refine ⟨applyRate (fun _ => day) 360 360 99, rfl, ?_, ?_⟩
    · rw [lookup_char]
      norm_num [applyRate]
      rfl
    · rw [lookup_char]
      norm_num [applyRate]
      rfl

/-- C3 witness: the single-minute window `06:00 - 06:00 @ 99` over base
10 sets minute 360 to 99. -/
theorem single_minute_window_witness : demoSingleTable 360 = 99 := by
  have h := single_minute_window.1 (fun _ => 10) demoSingleTable
    ⟨"fixed", 99, "06:00", "06:00"⟩ 360 (by decide) (by decide) rfl 360
  simpa using h

/-- C4: an empty window list compiles to the constant table at the base
rate, and every query that returns a value returns the base rate. -/
theorem empty_windows_base_rate (day : Rat) :
    Tariff.compile_unit_rate_lookup day [] = some (fun _ => day) ∧
    (∀ (time : String) (r : Rat), Tariff.lookup (fun _ => day) time = some r → r = day) := by
  refine ⟨rfl, ?_⟩
  intro time r h
  rw [lookup_char] at h
  split at h
  · split at h
    · simpa using h.symm
    · simp at h
  · split at h
    · simpa using h.symm
    · simp at h
  · simp at h

/-- C4 witness: over the empty window list and base rate 10, the query
at `12:00` returns 10. -/
theorem empty_windows_base_rate_witness :
    Tariff.compile_unit_rate_lookup 10 [] = some (fun _ => (10 : Rat)) ∧ (10 : Rat) = 10 :=
  ⟨(empty_windows_base_rate 10).1, (empty_windows_base_rate 10).2 "12:00" 10 (by decide)⟩

/-- C5 counterexample: a seconds component in the query input is not
ignored — `"06:00:30"` fails while `"06:00"` returns the slot value,
because the code appends `":00"` and `"06:00:30:00"` is not a valid
`h:m:s` timedelta string. -/
theorem lookup_seconds_counterexample :
    Tariff.lookup demoTable "06:00:30" = Option.none ∧
    Tariff.lookup demoTable "06:00" = some 360 := by
  constructor <;> decide

/-- C5 (amended): a well-formed `hour:minute` input with digit-field
values `h` and `mc` mapping into `[0, 1440)` returns exactly the slot
at index `h*60 + mc` — the appended seconds field is always zero, so
the stored minute resolution is never exceeded; but an input carrying
its own seconds component (three colon fields) fails instead of being
ignored. -/
theorem lookup_hour_minute_contract :
    (∀ (table : MinuteTable) (time : String) (d₁ d₂ : List Char) (h mc : Nat),
      splitCols time.data = [d₁, d₂] →
      digitsToNat? d₁ = some h → digitsToNat? d₂ = some mc →
      ∀ hlt : h * 60 + mc < 1440,
        Tariff.lookup table time = some (table ⟨h * 60 + mc, hlt⟩))
    ∧ (∀ (table : MinuteTable) (time : String) (d₁ d₂ d₃ : List Char),
      splitCols time.data = [d₁, d₂, d₃] →
      Tariff.lookup table time = Option.none) := by
  constructor
  · intro table time d₁ d₂ h mc hsplit hd₁ hd₂ hlt
    rw [lookup_char, hsplit]
    simp only [List.map_cons, List.map_nil, hd₁, hd₂]
    rw [dif_pos hlt]
  · intro table time d₁ d₂ d₃ hsplit
    rw [lookup_char, hsplit]
    simp only [List.map_cons, List.map_nil]
    cases digitsToNat? d₁ <;> cases digitsToNat? d₂ <;> rfl

/-- C5 witness: `"9:75"` is a well-formed hour:minute input (pandas
does not bound the minute field) mapping to minute 615; the lookup
returns that slot. -/
theorem lookup_hour_minute_contract_witness :
    Tariff.lookup demoTable "9:75" = some 615 := by
  have h := lookup_hour_minute_contract.1 demoTable "9:75" ['9'] ['7', '5'] 9 75
    (by decide) (by decide) (by decide) (by norm_num)
  simpa [demoTable] using h

/-- C7 counterexample: the rendering does not enumerate the fields in
dataclass declaration order — on a schedule with one window, the
standing charge is printed after the windows, not before them. -/
theorem str_order_counterexample :
    Tariff.str demoTariff ≠ Tariff.strClaimOrder demoTariff := by
  decide

/-- C7 (amended): the rendering is the deterministic multi-line
description listing the schedule's name, the day unit rate, each rate
window's name, time range and rate in list order, and then the
standing charge (the standing-charge line comes after the windows,
not in field declaration order). -/
theorem str_renders_windows_then_standing_charge (t : Tariff) :
    Tariff.str t = Tariff.strRendered t := by
  unfold Tariff.str Tariff.strRendered
  rw [foldl_render]

/-- C8: for every finite chain of server pages linked by full-URL
`next` cursors, `get_all` returns the concatenation of the pages'
records in server order and issues exactly one request per page. -/
theorem get_all_concatenates_pages {α : Type} (base : String)
    (server : String → PageResponse α) (path : String) (pages : List (List α))
    (hc : PageChain base server path pages) (fuel : Nat) (hfuel : pages.length ≤ fuel) :
    get_all base server fuel path = some (pages.flatten, pages.length) := by
  have h := getAllAux_chain hc fuel [] 0 hfuel
  simpa [get_all] using h

/-- C8 witness: three pages of two records each, linked by `next`,
yield the six records in page order from exactly three requests. -/
theorem get_all_concatenates_pages_witness :
    get_all demoBase demoServer 3 "v1/products?page=1" = some ([1, 2, 3, 4, 5, 6], 3) := by
  have hchain : PageChain demoBase demoServer "v1/products?page=1" [[1, 2], [3, 4], [5, 6]] := by
    refine PageChain.step _ "v1/products?page=2" _ (by decide) (by decide) ?_
    refine PageChain.step _ "v1/products?page=3" _ (by decide) (by decide) ?_
    exact PageChain.last _ (Or.inl (by decide))
  simpa using get_all_concatenates_pages demoBase demoServer _ _ hchain 3 (by norm_num)

/-- C9: every slot of a compiled table holds either the base rate or
the unit rate of one of the supplied windows — compilation never
invents a rate. -/
theorem compile_values_from_inputs (day : Rat) (rates : List Rate) (table : MinuteTable)
    (h : Tariff.compile_unit_rate_lookup day rates = some table) (m : Fin 1440) :
    table m = day ∨ ∃ r ∈ rates, table m = r.unit_rate := by
  have hm := applyRates_eq rates (fun _ => day) table h m
  rcases hf : rates.reverse.find? (fun r => r.covers (m : Nat)) with _ | r <;> rw [hf] at hm
  · left
    simpa using hm
  · right
    exact ⟨r, by simpa using List.mem_of_find?_eq_some hf, hm⟩

/-- C9 witness: the table compiled from `[demoPeak]` over base 10 at
minute 570 holds either 10 or one of the windows' rates. -/
theorem compile_values_from_inputs_witness :
    demoPeakTable 570 = 10 ∨ ∃ r ∈ [demoPeak], demoPeakTable 570 = r.unit_rate :=
  compile_values_from_inputs 10 [demoPeak] demoPeakTable rfl 570

/-- C10: `params_to_str` joins `k=v` entries with `&` in insertion
order, keeping exactly the truthy-valued entries; an entry whose value
is `None`, `False`, `0` or `""` is silently omitted. -/
theorem params_to_str_truthy_filter (kwargs pre post : List (String × PyValue))
    (k : String) (v : PyValue) (hv : v.truthy = false) :
    params_to_str kwargs
      = joinAmp ((kwargs.filter (fun kv => kv.2.truthy)).map (fun kv => kv.1 ++ "=" ++ kv.2.fmt))
    ∧ params_to_str (pre ++ (k, v) :: post) = params_to_str (pre ++ post) := by
  constructor
  · unfold params_to_str
    rw [foldr_filter_map]
  · unfold params_to_str
    rw [foldr_filter_map, foldr_filter_map, List.filter_append, List.filter_append,
      List.filter_cons]
    simp [hv]

/-- C10 witness: a `False`-valued boolean filter produces no query
parameter at all, and the remaining entries join in insertion order. -/
theorem params_to_str_truthy_filter_witness :
    params_to_str [("group_by", PyValue.pyStr "day"), ("is_business", PyValue.pyBool false),
        ("page", PyValue.pyInt 1)]
      = params_to_str [("group_by", PyValue.pyStr "day"), ("page", PyValue.pyInt 1)] ∧
    params_to_str [("group_by", PyValue.pyStr "day"), ("page", PyValue.pyInt 1)]
      = "group_by=day&page=1" := by
  have h := params_to_str_truthy_filter
    [("group_by", PyValue.pyStr "day"), ("is_business", PyValue.pyBool false),
      ("page", PyValue.pyInt 1)]
    [("group_by", PyValue.pyStr "day")] [("page", PyValue.pyInt 1)]
    "is_business" (PyValue.pyBool false) rfl
  refine ⟨by simpa using h.2, by decide⟩

end Energy
